import Mathlib

/-!
Shallow embedding of `src/fetch_data.py` (a one-shot batch exporter that
fetches paginated riders/drivers/vehicles from an HTTP API, normalizes some
fields and writes CSV files), together with theorems settling the frozen
claims about it.

Strings are modelled through their character lists (`String.data`), machine
side effects (logging) are dropped except where a claim mentions them (the
empty-address warning is modelled as a boolean), fallible Python code is
modelled with `Option` (`none` = an exception was raised), and the HTTP
layer is modelled as a function from request parameters to responses.
-/

/-- ASCII fragment of Python's whitespace class, as used by `str.strip`,
`str.split()` and the regex class `\s`. -/
def isPySpace (c : Char) : Bool :=
  c == ' ' || c == '\t' || c == '\n' || c == '\r' || c == '\x0b' || c == '\x0c'

/-- Python `str.strip` on the leading end only: drop leading whitespace. -/
def dropLead (l : List Char) : List Char := l.dropWhile isPySpace

/-- Python `str.strip` on the trailing end only: drop trailing whitespace. -/
def dropTrail (l : List Char) : List Char := (l.reverse.dropWhile isPySpace).reverse

/-- Python `str.strip()` with no arguments: drop whitespace at both ends. -/
def pyStrip (l : List Char) : List Char := dropTrail (dropLead l)

/-- Python `s.split(';')[0]`: the prefix of `s` before the first semicolon
(the whole string when there is none). -/
def beforeSemi (l : List Char) : List Char := l.takeWhile (fun c => !(c == ';'))

/-- Matcher for the `\s*\(` part of the regex `\s*\(.*?\)` of
`clean_description`: consume the (maximal) whitespace run and the opening
parenthesis, returning the rest on success.  Backtracking the greedy `\s*`
cannot help, because a shorter run would have to be followed by `(`, which is
not a whitespace character. -/
def matchOpenParen : List Char → Option (List Char)
  | [] => none
  | c :: cs => if c = '(' then some cs else if isPySpace c then matchOpenParen cs else none

/-- Matcher for the `.*?\)` part of the regex `\s*\(.*?\)`: lazily consume
characters up to the first closing parenthesis; `.` does not match a newline,
so a newline before the first `)` makes the match fail. -/
def matchCloseParen : List Char → Option (List Char)
  | [] => none
  | c :: cs => if c = ')' then some cs else if c = '\n' then none else matchCloseParen cs

/-- One attempted match of the whole regex `\s*\(.*?\)` at the current
position. -/
def matchParen (l : List Char) : Option (List Char) :=
  (matchOpenParen l).bind matchCloseParen

/-- Fuelled scanner for Python `re.sub(r'\s*\(.*?\)', '', text)`: scan left to
right, replacing every non-overlapping match by nothing.  Every step consumes
at least one character, so fuel = length of the text is always enough. -/
def subParensFuel : Nat → List Char → List Char
  | 0, s => s
  | _ + 1, [] => []
  | fuel + 1, c :: cs =>
    match matchParen (c :: cs) with
    | some r => subParensFuel fuel r
    | none => c :: subParensFuel fuel cs

/-- Python `re.sub(r'\s*\(.*?\)', '', text)` (line 144 of the source):
delete every non-overlapping match of the pattern, scanning left to right. -/
def subParens (l : List Char) : List Char := subParensFuel l.length l

/-- Lines 142-147 of the source:
`text = re.sub(r'\s*\(.*?\)', '', text).strip()` followed by
`text = text.split(';')[0].strip()`. -/
def clean_description (text : String) : String :=
  let t1 := pyStrip (subParens text.data)
  String.mk (pyStrip (beforeSemi t1))

/-- Variant written from the claim's words for C2 ("removes the first
parenthesized substring and its surrounding whitespace ... then truncates the
result at the first semicolon and trims surrounding whitespace"): replace only
the FIRST match of the pattern, then truncate and trim. -/
def subFirstParenFuel : Nat → List Char → List Char
  | 0, s => s
  | _ + 1, [] => []
  | fuel + 1, c :: cs =>
    match matchParen (c :: cs) with
    | some r => r
    | none => c :: subFirstParenFuel fuel cs

/-- The C2 claim's version of `clean_description`: only the first
parenthesized group is removed. -/
def clean_description_spec_first (text : String) : String :=
  String.mk (pyStrip (beforeSemi (subFirstParenFuel text.data.length text.data)))

/-- The amended C2 description of `clean_description`: remove EVERY
parenthesized group (each non-overlapping match of the pattern, left to
right), then truncate at the first semicolon and trim whitespace. -/
def clean_description_spec_all (text : String) : String :=
  String.mk (pyStrip (beforeSemi (subParens text.data)))

/-- Line 68 of the source: `phone_number.replace("+", "").replace("-", "").replace(" ", "")`. -/
def phoneStrip (s : String) : List Char :=
  s.data.filter (fun c => !(c == '+') && !(c == '-') && !(c == ' '))

/-- Lines 61-76 of the source: `format_phone_number`.  The empty string is
returned unchanged; otherwise `+`, `-` and spaces are removed, an
11-character result starting with `1` loses that character, and a
10-character result is rendered as `(AAA)PPP-LLLL`. -/
def format_phone_number (phone_number : String) : String :=
  if phone_number = "" then ""
  else
    let digits0 := phoneStrip phone_number
    let digits := if digits0.length = 11 ∧ digits0.head? = some '1' then digits0.tail else digits0
    if digits.length = 10 then
      String.mk ('(' :: digits.take 3 ++ ')' :: (digits.drop 3).take 3 ++ '-' :: digits.drop 6)
    else
      String.mk digits

/-- Variant written from the claim's words for C4, which speak of "11 digits"
and "exactly 10 digits": the length tests additionally require every
character to be a decimal digit. -/
def format_phone_number_spec_digits (phone_number : String) : String :=
  if phone_number = "" then ""
  else
    let digits0 := phoneStrip phone_number
    let digits :=
      if digits0.length = 11 ∧ digits0.all Char.isDigit ∧ digits0.head? = some '1' then
        digits0.tail
      else digits0
    if digits.length = 10 ∧ digits.all Char.isDigit then
      String.mk ('(' :: digits.take 3 ++ ')' :: (digits.drop 3).take 3 ++ '-' :: digits.drop 6)
    else
      String.mk digits

/-- Python `str.split()` with no argument: split on whitespace runs,
discarding empty pieces.  The accumulator holds the current word reversed. -/
def pySplitWsAux : List Char → List Char → List String
  | [], acc => if acc.isEmpty then [] else [String.mk acc.reverse]
  | c :: cs, acc =>
    if isPySpace c then
      if acc.isEmpty then pySplitWsAux cs [] else String.mk acc.reverse :: pySplitWsAux cs []
    else pySplitWsAux cs (c :: acc)

/-- Python `s.split()` (no separator argument). -/
def pySplitWs (s : String) : List String := pySplitWsAux s.data []

/-- A Resource Item: one rider/driver/vehicle record, a string-keyed mapping
with a nested `metadata` mapping.  A missing `metadata` key is the empty
mapping, matching `item.get('metadata', {})`. -/
structure Item where
  fields : List (String × String)
  metadata : List (String × String)

/-- Python `d.get(key, "")` on a string-valued dict. -/
def dictGet (l : List (String × String)) (k : String) : String :=
  match l.find? (fun kv => kv.1 == k) with
  | some kv => kv.2
  | none => ""

/-- Top-level field access with empty-string default. -/
def itemGet (i : Item) (k : String) : String := dictGet i.fields k

/-- Metadata field access with empty-string default. -/
def metaGet (i : Item) (k : String) : String := dictGet i.metadata k

/-- Line 108 of the source: the composed mailing address,
`f"{mailing_address_unit}-{mailing_address}"` when the unit is non-empty
(truthy) and the bare address otherwise. -/
def full_mailing_address (rider : Item) : String :=
  let mailing_address_unit := metaGet rider "mailing_address_unit"
  let mailing_address := metaGet rider "mailing_address"
  if mailing_address_unit ≠ "" then mailing_address_unit ++ "-" ++ mailing_address
  else mailing_address

/-- Lines 110-111 of the source: a warning is logged exactly when the
composed mailing address is falsy (empty). -/
def rider_address_warning (rider : Item) : Bool :=
  decide (full_mailing_address rider = "")

/-- Lines 97-128 of the source: the rider CSV row. -/
def process_rider_row (rider : Item) : List String :=
  [itemGet rider "externalNumericId",
   itemGet rider "firstName",
   itemGet rider "lastName",
   format_phone_number (itemGet rider "phoneNumber"),
   "",
   itemGet rider "email",
   full_mailing_address rider,
   metaGet rider "mailing_city",
   metaGet rider "mailing_province_state",
   metaGet rider "mailing_postal_zip_code"]

/-- Lines 130-140 of the source: the driver CSV row. -/
def process_driver_row (driver : Item) : List String :=
  [metaGet driver "wtp_driver_id",
   itemGet driver "firstName",
   itemGet driver "lastName"]

/-- Lines 150-172 of the source: the vehicle CSV row.  `identifier.split()[0]`
raises an `IndexError` when the identifier has no whitespace-delimited token
(missing, empty or all-whitespace identifier); that exceptional outcome is
modelled as `none`. -/
def process_vehicle_row (vehicle : Item) : Option (List String) :=
  match pySplitWs (itemGet vehicle "identifier") with
  | [] => none
  | identifier :: _ =>
    some [identifier,
          metaGet vehicle "contractor_name",
          itemGet vehicle "licensePlate",
          itemGet vehicle "color",
          clean_description (itemGet vehicle "make"),
          clean_description (itemGet vehicle "model"),
          clean_description (metaGet vehicle "vehicle_description")]

/-- Lines 91-94 of the source: the data rows actually written, in order.
`none` from the row mapper models an exception escaping `save_to_csv`: the
rows already written stay in the file and the boolean flag becomes `false`.
A falsy (empty) row is skipped. -/
def writeRows (process_row : Item → Option (List String)) : List Item → List (List String) × Bool
  | [] => ([], true)
  | i :: rest =>
    match process_row i with
    | none => ([], false)
    | some row =>
      let t := writeRows process_row rest
      (if row.isEmpty then t.1 else row :: t.1, t.2)

/-- Lines 78-95 of the source: `save_to_csv` writes the header row followed
by one row per item (skipping falsy rows).  The result is the list of CSV
records in the produced file plus a success flag (`false` when the row
mapper raised, leaving a partial file). -/
def save_to_csv (data : List Item) (columns : List String)
    (process_row : Item → Option (List String)) : List (List String) × Bool :=
  let t := writeRows process_row data
  (columns :: t.1, t.2)

/-- Mapper passed to `save_to_csv` for riders (never raises). -/
def rider_row_mapper (i : Item) : Option (List String) := some (process_rider_row i)

/-- Mapper passed to `save_to_csv` for drivers (never raises). -/
def driver_row_mapper (i : Item) : Option (List String) := some (process_driver_row i)

/-- Lines 185-196 of the source: the rider header row. -/
def rider_columns : List String :=
  ["Registration Number", "First Name", "Last Name", "Telephone", "Telephone Ext",
   "Email", "Mailing Address", "City/Town", "Province/State", "Postal/Zip Code"]

/-- Lines 203-207 of the source: the driver header row. -/
def driver_columns : List String :=
  ["Internal Driver ID", "First Name", "Last Name"]

/-- Lines 214-222 of the source: the vehicle header row. -/
def vehicle_columns : List String :=
  ["Vehicle ID", "Contractor Name", "License Plate", "Color", "Make", "Model",
   "Vehicle Description"]

/-- Line 37 of the source: the query parameters of the request for a given
page number, `(limit, skip) = (50, (page - 1) * 50)`. -/
def requestParams (page : Nat) : Nat × Nat := (50, (page - 1) * 50)

/-- One HTTP response of the data source: a status code and the parsed body.
`body = none` models a parsed body that is falsy or lacks the `data` key
(`if not data or 'data' not in data`). -/
structure PageResponse (α : Type) where
  status : Nat
  body : Option (List α)

/-- Outcome of `fetch_data`: the accumulated item list, an HTTP error raised
by `response.raise_for_status()`, or the missing-token `ValueError`. -/
inductive FetchOutcome (α : Type) where
  | success (items : List α)
  | httpError (status : Nat)
  | configError
deriving DecidableEq

/-- Semantics of `requests.Response.raise_for_status()` (called on line 41):
it raises exactly for client-error (4xx) and server-error (5xx) codes. -/
def raise_for_status_raises (status : Nat) : Bool :=
  decide (400 ≤ status ∧ status < 600)

/-- Lines 39-41 of the source: a response aborts the fetch when its status is
not 200 AND `raise_for_status()` raises for it. -/
def statusAborts (status : Nat) : Bool :=
  decide (status ≠ 200) && raise_for_status_raises status

/-- Lines 35-56 of the source: the pagination loop, fuelled.  `none` means
the fuel ran out before the loop ended.  The server is queried with the
request parameters of each page, starting at page 1; an aborting status
raises, a falsy or `data`-less body ends the loop without contributing
items, a short page (< 50 items) ends the loop after contributing its
items, and a full page continues to the next page. -/
def fetchLoop {α : Type} (server : Nat × Nat → PageResponse α) :
    Nat → Nat → List α → Option (FetchOutcome α)
  | 0, _, _ => none
  | fuel + 1, page, acc =>
    let r := server (requestParams page)
    if statusAborts r.status then some (FetchOutcome.httpError r.status)
    else
      match r.body with
      | none => some (FetchOutcome.success acc)
      | some items =>
        if items.length < 50 then some (FetchOutcome.success (acc ++ items))
        else fetchLoop server fuel (page + 1) (acc ++ items)

/-- Lines 19-59 of the source: `fetch_data`.  The token comes from the
environment (`none` = unset); a falsy token raises `ValueError` before any
request is issued, otherwise the pagination loop runs. -/
def fetch_data {α : Type} (token : Option String) (server : Nat × Nat → PageResponse α)
    (fuel : Nat) : Option (FetchOutcome α) :=
  if token.getD "" = "" then some (FetchOutcome.configError)
  else fetchLoop server fuel 1 []

/-- Concatenation of the bodies of `count` consecutive pages starting at
`page` (a missing body contributes nothing). -/
def pagesFrom {α : Type} (server : Nat × Nat → PageResponse α) : Nat → Nat → List α
  | _, 0 => []
  | page, count + 1 =>
    ((server (requestParams page)).body.getD []) ++ pagesFrom server (page + 1) count

/-- Sum of the body lengths of `count` consecutive pages starting at `page`. -/
def sumPageLens {α : Type} (server : Nat × Nat → PageResponse α) : Nat → Nat → Nat
  | _, 0 => 0
  | page, count + 1 =>
    ((server (requestParams page)).body.getD []).length + sumPageLens server (page + 1) count

/-- Server fixture: page 1 (skip 0) is a full page of fifty items, every
later page is empty.  Used to exercise the pagination theorems. -/
def srvC1 : Nat × Nat → PageResponse Nat :=
  fun pr => if pr.2 = 0 then ⟨200, some (List.replicate 50 3)⟩ else ⟨200, some []⟩

/-- Server fixture: every page is an immediately-short (empty) page. -/
def srvStop : Nat × Nat → PageResponse Nat := fun _ => ⟨200, some []⟩

/-- Server fixture: every response has status 304 (a non-success status that
`raise_for_status()` does not raise on) and a well-formed empty page. -/
def srv304 : Nat × Nat → PageResponse Nat := fun _ => ⟨304, some []⟩

/-- Server fixture: every response has status 500. -/
def srv500 : Nat × Nat → PageResponse Nat := fun _ => ⟨500, some []⟩

/-- A vehicle Resource Item with no fields at all; its identifier defaults to
the empty string. -/
def emptyVehicle : Item := ⟨[], []⟩

/-- A vehicle Resource Item whose identifier has two whitespace-delimited
tokens. -/
def okVehicle : Item := ⟨[("identifier", "AB 12")], []⟩

/-- A rider Resource Item with both mailing-address metadata fields set. -/
def sampleRider : Item :=
  ⟨[("firstName", "Jane")],
   [("mailing_address_unit", "2"), ("mailing_address", "10 Main St")]⟩

/-- Taking while `p` holds distributes over a first block on which `p` holds
everywhere. -/
theorem takeWhile_append_all {α : Type} {p : α → Bool} {w u : List α}
    (h : ∀ x ∈ w, p x = true) : (w ++ u).takeWhile p = w ++ u.takeWhile p := by
  induction w with
  | nil => rfl
  | cons c w ih =>
    have hc : p c = true := h c (List.mem_cons_self c w)
    simp only [List.cons_append, List.takeWhile_cons, hc, if_true]
    rw [ih (fun x hx => h x (List.mem_cons_of_mem c hx))]

/-- Dropping while `q` holds skips over a first block on which `q` holds
everywhere. -/
theorem dropWhile_append_all {α : Type} {q : α → Bool} {w u : List α}
    (h : ∀ x ∈ w, q x = true) : (w ++ u).dropWhile q = u.dropWhile q := by
  induction w with
  | nil => rfl
  | cons c w ih =>
    have hc : q c = true := h c (List.mem_cons_self c w)
    simp only [List.cons_append, List.dropWhile_cons, hc, if_true]
    exact ih (fun x hx => h x (List.mem_cons_of_mem c hx))

/-- dropWhile is the identity when the head (if any) fails the predicate. -/
theorem dropWhile_eq_self_of_head {α : Type} {q : α → Bool} {u : List α}
    (h : ∀ c, u.head? = some c → q c = false) : u.dropWhile q = u := by
  cases u with
  | nil => rfl
  | cons c cs => simp [List.dropWhile_cons, h c rfl]

/-- The head of a dropWhile result fails the predicate. -/
theorem head?_dropWhile {α : Type} {q : α → Bool} :
    ∀ {l : List α} {c : α}, (l.dropWhile q).head? = some c → q c = false := by
  intro l
  induction l with
  | nil => intro c h; exact absurd h (by simp)
  | cons a l ih =>
    intro c h
    by_cases ha : q a = true
    · rw [List.dropWhile_cons, if_pos ha] at h
      exact ih h
    · rw [List.dropWhile_cons, if_neg ha] at h
      cases h
      exact Bool.eq_false_iff.mpr (by simpa using ha)

/-- The head of a takeWhile result is the head of the list. -/
theorem head?_takeWhile {α : Type} {p : α → Bool} :
    ∀ {l : List α} {c : α}, (l.takeWhile p).head? = some c → l.head? = some c := by
  intro l
  cases l with
  | nil => intro c h; exact absurd h (by simp)
  | cons a l =>
    intro c h
    by_cases ha : p a = true
    · rw [List.takeWhile_cons, if_pos ha] at h
      exact h ▸ rfl
    · rw [List.takeWhile_cons, if_neg ha] at h
      exact absurd h (by simp)

/-- takeWhile over an append: either it takes the whole first block and
continues, or it stops inside the first block. -/
theorem takeWhile_append_split {α : Type} [DecidableEq α] (p : α → Bool) (v z : List α) :
    (v ++ z).takeWhile p =
      if v.takeWhile p = v then v ++ z.takeWhile p else v.takeWhile p := by
  induction v with
  | nil => simp
  | cons c v ih =>
    by_cases hc : p c = true
    · by_cases hv : v.takeWhile p = v
      · simp [List.takeWhile_cons, hc, hv, ih]
      · simp [List.takeWhile_cons, hc, hv, ih]
    · simp [List.takeWhile_cons, hc]

/-- dropWhile is idempotent. -/
theorem dropWhile_idem {α : Type} (q : α → Bool) (l : List α) :
    (l.dropWhile q).dropWhile q = l.dropWhile q :=
  dropWhile_eq_self_of_head (fun _ hc => head?_dropWhile hc)

/-- Appending trailing whitespace does not change `dropTrail`. -/
theorem dropTrail_append_ws (v z : List Char) (hz : ∀ x ∈ z, isPySpace x = true) :
    dropTrail (v ++ z) = dropTrail v := by
  unfold dropTrail
  rw [List.reverse_append,
      dropWhile_append_all (fun x hx => hz x (List.mem_reverse.mp hx))]

/-- Every list is its trailing-stripped part followed by trailing whitespace. -/
theorem dropTrail_decomp (u : List Char) :
    u = dropTrail u ++ (u.reverse.takeWhile isPySpace).reverse := by
  unfold dropTrail
  conv_lhs => rw [← List.reverse_reverse u,
    ← List.takeWhile_append_dropWhile (p := isPySpace) (l := u.reverse)]
  rw [List.reverse_append]

/-- The trailing part split off by `dropTrail` is all whitespace. -/
theorem trail_ws (u : List Char) :
    ∀ x ∈ (u.reverse.takeWhile isPySpace).reverse, isPySpace x = true :=
  fun _ hx => List.mem_takeWhile_imp (List.mem_reverse.mp hx)

/-- The head survives `dropTrail`. -/
theorem head?_dropTrail {u : List Char} {c : Char}
    (h : (dropTrail u).head? = some c) : u.head? = some c := by
  have hu := dropTrail_decomp u
  cases hdt : dropTrail u with
  | nil => rw [hdt] at h; exact absurd h (by simp)
  | cons a t =>
    rw [hdt] at h hu
    cases h
    rw [hu]
    rfl

/-- Trailing-stripping commutes past a takeWhile, in the sense needed for
the strip/truncate exchange of `clean_description`. -/
theorem dropTrail_takeWhile (p : Char → Bool) (u : List Char) :
    dropTrail ((dropTrail u).takeWhile p) = dropTrail (u.takeWhile p) := by
  have hu := dropTrail_decomp u
  have hzws := trail_ws u
  conv_rhs => rw [hu]
  rw [takeWhile_append_split]
  by_cases hcase : (dropTrail u).takeWhile p = dropTrail u
  · rw [if_pos hcase, hcase,
      dropTrail_append_ws _ _
        (fun x hx => hzws x ((List.takeWhile_sublist _).subset hx))]
  · rw [if_neg hcase]

/-- Stripping before truncating at the first semicolon is redundant: the
source's strip-truncate-strip equals the claim's truncate-strip. -/
theorem pyStrip_takeWhile_pyStrip (p : Char → Bool)
    (hp : ∀ c, isPySpace c = true → p c = true) (t : List Char) :
    pyStrip ((pyStrip t).takeWhile p) = pyStrip (t.takeWhile p) := by
  unfold pyStrip dropLead
  have hhead : ∀ c, (t.dropWhile isPySpace).head? = some c → isPySpace c = false :=
    fun _ hc => head?_dropWhile hc
  have h1 : ((dropTrail (t.dropWhile isPySpace)).takeWhile p).dropWhile isPySpace
      = (dropTrail (t.dropWhile isPySpace)).takeWhile p :=
    dropWhile_eq_self_of_head
      (fun c hc => hhead c (head?_dropTrail (head?_takeWhile hc)))
  have hwws : ∀ x ∈ t.takeWhile isPySpace, isPySpace x = true :=
    fun _ hx => List.mem_takeWhile_imp hx
  have h2 : t.takeWhile p = t.takeWhile isPySpace ++ (t.dropWhile isPySpace).takeWhile p := by
    conv_lhs => rw [← List.takeWhile_append_dropWhile (p := isPySpace) (l := t)]
    exact takeWhile_append_all (fun x hx => hp x (hwws x hx))
  have h3 : (t.takeWhile p).dropWhile isPySpace = (t.dropWhile isPySpace).takeWhile p := by
    rw [h2, dropWhile_append_all hwws]
    exact dropWhile_eq_self_of_head (fun c hc => hhead c (head?_takeWhile hc))
  rw [h1, h3, dropTrail_takeWhile]

/-- C2 counterexample: on an input with two parenthesized groups the code
removes both (`re.sub` replaces every match), while the claim's
first-match-only reading would leave the second group in place. -/
theorem clean_description_first_match_counterexample :
    clean_description "a (x) (y)" = "a"
    ∧ clean_description_spec_first "a (x) (y)" = "a (y)"
    ∧ clean_description "a (x) (y)" ≠ clean_description_spec_first "a (x) (y)" :=
  ⟨rfl, rfl, by decide⟩

/-- C2 (amended): for every input string, `clean_description` removes EVERY
parenthesized substring and its surrounding whitespace (each non-overlapping
match of the pattern, scanned left to right), then truncates the result at
the first semicolon and trims surrounding whitespace; in particular
`clean_description "Toyota (2020 model); used" = "Toyota"`. -/
theorem clean_description_removes_all_parens :
    (∀ s : String, clean_description s = clean_description_spec_all s)
    ∧ clean_description "Toyota (2020 model); used" = "Toyota"
    ∧ clean_description "a (x) b (y); z" = "a b" := by
  refine ⟨?_, rfl, rfl⟩
  intro s
  have hp : ∀ c, isPySpace c = true → (fun c => !(c == ';')) c = true := by
    intro c hc
    have hne : c ≠ ';' := by
      intro h
      subst h
      exact absurd hc (by decide)
    simpa using hne
  show String.mk (pyStrip (beforeSemi (pyStrip (subParens s.data)))) = _
  unfold clean_description_spec_all beforeSemi
  exact congrArg String.mk (pyStrip_takeWhile_pyStrip _ hp (subParens s.data))

/-- C4 counterexample: the code tests only the LENGTH of the stripped string,
not that its characters are digits, so a 10-letter input is reformatted as a
phone number, while the claim's "exactly 10 digits" reading would return it
unchanged. -/
theorem format_phone_number_digits_counterexample :
    format_phone_number "abcdefghij" = "(abc)def-ghij"
    ∧ format_phone_number_spec_digits "abcdefghij" = "abcdefghij"
    ∧ format_phone_number "abcdefghij" ≠ format_phone_number_spec_digits "abcdefghij" :=
  ⟨rfl, rfl, by decide⟩

/-- C4 (amended): `format_phone_number` strips `+`, `-` and spaces; if the
stripped string has 11 CHARACTERS and starts with `1` that leading character
is dropped; if the result has exactly 10 CHARACTERS it is reformatted as
(AAA)PPP-LLLL; otherwise the stripped string is returned unchanged; the empty
input returns the empty string.  In particular
`format_phone_number "+1 204-555-1234" = "(204)555-1234"`,
`format_phone_number "5551234" = "5551234"` and
`format_phone_number "" = ""`. -/
theorem format_phone_number_length_based (s : String) :
    format_phone_number "+1 204-555-1234" = "(204)555-1234"
    ∧ format_phone_number "5551234" = "5551234"
    ∧ format_phone_number "" = ""
    ∧ ∀ t : List Char, phoneStrip s = t →
        ((t.length = 11 ∧ t.head? = some '1') →
          format_phone_number s =
            String.mk ('(' :: t.tail.take 3 ++ ')' :: (t.tail.drop 3).take 3
              ++ '-' :: t.tail.drop 6))
        ∧ (t.length = 10 →
          format_phone_number s =
            String.mk ('(' :: t.take 3 ++ ')' :: (t.drop 3).take 3 ++ '-' :: t.drop 6))
        ∧ ((¬(t.length = 11 ∧ t.head? = some '1') ∧ t.length ≠ 10) →
          format_phone_number s = String.mk t) := by
  refine ⟨rfl, rfl, rfl, ?_⟩
  intro t ht
  by_cases hs : s = ""
  · have htnil : t = [] := by rw [← ht, hs]; rfl
    subst htnil
    exact ⟨fun h => absurd h.1 (by decide), fun h => absurd h (by decide),
      fun _ => by rw [hs]; rfl⟩
  · refine ⟨?_, ?_, ?_⟩
    · intro h11
      have htail : t.tail.length = 10 := by
        rw [List.length_tail, h11.1]
      simp only [format_phone_number, if_neg hs, ht, if_pos h11, if_pos htail]
    · intro h10
      have hnot11 : ¬(t.length = 11 ∧ t.head? = some '1') := by
        intro h
        omega
      simp only [format_phone_number, if_neg hs, ht, if_neg hnot11, if_pos h10]
    · intro h
      simp only [format_phone_number, if_neg hs, ht, if_neg h.1, if_neg h.2]

/-- Unfolding of the vehicle row when the identifier has a first token. -/
theorem process_vehicle_row_eq (v : Item) (t : String) (ts : List String)
    (h : pySplitWs (itemGet v "identifier") = t :: ts) :
    process_vehicle_row v =
      some [t, metaGet v "contractor_name", itemGet v "licensePlate",
            itemGet v "color", clean_description (itemGet v "make"),
            clean_description (itemGet v "model"),
            clean_description (metaGet v "vehicle_description")] := by
  unfold process_vehicle_row
  rw [h]

/-- C3 counterexample: on a vehicle with a missing (hence empty-string)
identifier, `identifier.split()[0]` indexes an empty list, so
`process_vehicle_row` raises an IndexError (modelled as `none`) instead of
returning a row. -/
theorem process_vehicle_row_empty_identifier_counterexample :
    itemGet emptyVehicle "identifier" = "" ∧ process_vehicle_row emptyVehicle = none :=
  ⟨rfl, rfl⟩

/-- C3 (amended): for every vehicle Resource Item whose raw identifier
contains at least one whitespace-delimited token, `process_vehicle_row`
returns a row without raising, with the Vehicle ID cell equal to the first
token; when the identifier has no token (missing, empty, or all-whitespace
fields defaulting to the empty string), the mapper raises an IndexError
instead of returning a row. -/
theorem process_vehicle_row_first_token (v : Item) (t : String) (ts : List String)
    (h : pySplitWs (itemGet v "identifier") = t :: ts) :
    ∃ row, process_vehicle_row v = some row ∧ row.head? = some t ∧ row.length = 7 :=
  ⟨_, process_vehicle_row_eq v t ts h, rfl, rfl⟩

/-- C3 witness at a concrete vehicle whose identifier is "AB 12". -/
theorem process_vehicle_row_first_token_witness :
    ∃ row, process_vehicle_row okVehicle = some row ∧ row.head? = some "AB" ∧ row.length = 7 :=
  process_vehicle_row_first_token okVehicle "AB" ["12"] (by decide)

/-- C8: the composed rider mailing address is "{unit}-{address}" when the
metadata unit field is non-empty and just "{address}" otherwise; it is the
seventh CSV cell; missing components give the empty string rather than an
error; and the warning is logged exactly when the composed address is empty,
equivalently when both components are empty. -/
theorem rider_mailing_address_composition (rider : Item) :
    (metaGet rider "mailing_address_unit" ≠ "" →
      full_mailing_address rider =
        metaGet rider "mailing_address_unit" ++ "-" ++ metaGet rider "mailing_address")
    ∧ (metaGet rider "mailing_address_unit" = "" →
      full_mailing_address rider = metaGet rider "mailing_address")
    ∧ (process_rider_row rider).get? 6 = some (full_mailing_address rider)
    ∧ (rider_address_warning rider = true ↔ full_mailing_address rider = "")
    ∧ (rider_address_warning rider = true ↔
        (metaGet rider "mailing_address_unit" = ""
          ∧ metaGet rider "mailing_address" = "")) := by
  refine ⟨?_, ?_, rfl, ?_, ?_⟩
  · intro h
    unfold full_mailing_address
    rw [if_pos h]
  · intro h
    unfold full_mailing_address
    rw [if_neg (by simp [h])]
  · unfold rider_address_warning
    exact decide_eq_true_iff
  · unfold rider_address_warning
    rw [decide_eq_true_iff]
    unfold full_mailing_address
    by_cases h : metaGet rider "mailing_address_unit" = ""
    · rw [if_neg (by simp [h])]
      simp [h]
    · rw [if_pos h]
      constructor
      · intro he
        exfalso
        have hd := congrArg String.data he
        rw [String.data_append, String.data_append] at hd
        simp at hd
      · intro he
        exact absurd he.1 h

/-- C8 witness at a concrete rider with both address components set. -/
theorem rider_mailing_address_composition_witness :
    full_mailing_address sampleRider
      = metaGet sampleRider "mailing_address_unit" ++ "-"
        ++ metaGet sampleRider "mailing_address" :=
  (rider_mailing_address_composition sampleRider).1 (by decide)

/-- When the mapper returns a non-empty row for every item of the collection,
`writeRows` writes exactly one row per item and no exception occurs. -/
theorem writeRows_total (f : Item → Option (List String)) :
    ∀ data : List Item, (∀ i ∈ data, ∃ r, f i = some r ∧ r ≠ []) →
      (writeRows f data).1.length = data.length ∧ (writeRows f data).2 = true := by
  intro data
  induction data with
  | nil => intro _; exact ⟨rfl, rfl⟩
  | cons i rest ih =>
    intro h
    obtain ⟨r, hr, hne⟩ := h i (List.mem_cons_self i rest)
    have hemp : r.isEmpty = false := by
      cases r with
      | nil => exact absurd rfl hne
      | cons a l => rfl
    have ht := ih (fun j hj => h j (List.mem_cons_of_mem i hj))
    simp only [writeRows, hr, hemp]
    exact ⟨by simp [ht.1], ht.2⟩

/-- Every row written by `writeRows` came from the mapper, so it has the
mapper's fixed width. -/
theorem writeRows_cell_width (f : Item → Option (List String)) (k : Nat)
    (hf : ∀ i r, f i = some r → r.length = k) :
    ∀ (data : List Item), ∀ row ∈ (writeRows f data).1, row.length = k := by
  intro data
  induction data with
  | nil => intro row hrow; exact absurd hrow (by simp [writeRows])
  | cons i rest ih =>
    intro row hrow
    cases hfi : f i with
    | none => rw [show writeRows f (i :: rest) = ([], false) by simp [writeRows, hfi]] at hrow
              exact absurd hrow (by simp)
    | some r =>
      simp only [writeRows, hfi] at hrow
      by_cases hemp : r.isEmpty = true
      · rw [if_pos hemp] at hrow
        exact ih row hrow
      · rw [if_neg hemp] at hrow
        rcases List.mem_cons.mp hrow with rfl | hmem
        · exact hf i row hfi
        · exact ih row hmem

/-- The rider mapper always yields a non-empty 10-cell row. -/
theorem rider_row_mapper_total (i : Item) :
    rider_row_mapper i = some (process_rider_row i)
    ∧ (process_rider_row i).length = 10 ∧ process_rider_row i ≠ [] :=
  ⟨rfl, rfl, by simp [process_rider_row]⟩

/-- The driver mapper always yields a non-empty 3-cell row. -/
theorem driver_row_mapper_total (i : Item) :
    driver_row_mapper i = some (process_driver_row i)
    ∧ (process_driver_row i).length = 3 ∧ process_driver_row i ≠ [] :=
  ⟨rfl, rfl, by simp [process_driver_row]⟩

/-- Any row the vehicle mapper returns has 7 cells. -/
theorem process_vehicle_row_width (i : Item) (r : List String)
    (h : process_vehicle_row i = some r) : r.length = 7 := by
  unfold process_vehicle_row at h
  cases hs : pySplitWs (itemGet i "identifier") with
  | nil => rw [hs] at h; exact absurd h (by simp)
  | cons t ts => rw [hs] at h; cases h; rfl

/-- C7 counterexample: writing the singleton collection holding a vehicle
with an empty identifier leaves a file with only the header record (the row
mapper raises), so the record count is 1, not N + 1 = 2. -/
theorem save_to_csv_vehicle_counterexample :
    (save_to_csv [emptyVehicle] vehicle_columns process_vehicle_row).1.length = 1
    ∧ (save_to_csv [emptyVehicle] vehicle_columns process_vehicle_row).1.length
        ≠ [emptyVehicle].length + 1
    ∧ (save_to_csv [emptyVehicle] vehicle_columns process_vehicle_row).2 = false :=
  ⟨rfl, by decide, rfl⟩

/-- C7 (amended): for every collection of N items written via `save_to_csv`
with one of the three configured row mappers and its matching header list,
the produced file has exactly N + 1 CSV records and every record has as many
cells as the header — unconditionally for the rider and driver mappers, and
for the vehicle mapper provided every item's identifier has a
whitespace-delimited token (otherwise the mapper raises and the file is left
partial). -/
theorem save_to_csv_record_counts (data : List Item) :
    ((save_to_csv data rider_columns rider_row_mapper).1.length = data.length + 1
      ∧ ∀ row ∈ (save_to_csv data rider_columns rider_row_mapper).1,
          row.length = rider_columns.length)
    ∧ ((save_to_csv data driver_columns driver_row_mapper).1.length = data.length + 1
      ∧ ∀ row ∈ (save_to_csv data driver_columns driver_row_mapper).1,
          row.length = driver_columns.length)
    ∧ ((∀ v ∈ data, pySplitWs (itemGet v "identifier") ≠ []) →
      ((save_to_csv data vehicle_columns process_vehicle_row).1.length = data.length + 1
        ∧ ∀ row ∈ (save_to_csv data vehicle_columns process_vehicle_row).1,
            row.length = vehicle_columns.length)) := by
  have hr := writeRows_total rider_row_mapper data
    (fun i _ => ⟨process_rider_row i, rfl, (rider_row_mapper_total i).2.2⟩)
  have hd := writeRows_total driver_row_mapper data
    (fun i _ => ⟨process_driver_row i, rfl, (driver_row_mapper_total i).2.2⟩)
  refine ⟨⟨?_, ?_⟩, ⟨?_, ?_⟩, ?_⟩
  · show ((rider_columns :: (writeRows rider_row_mapper data).1).length = _)
    rw [List.length_cons, hr.1]
  · intro row hrow
    rcases List.mem_cons.mp hrow with rfl | hmem
    · rfl
    · exact writeRows_cell_width rider_row_mapper 10
        (fun i r h => by cases h; rfl) data row hmem
  · show ((driver_columns :: (writeRows driver_row_mapper data).1).length = _)
    rw [List.length_cons, hd.1]
  · intro row hrow
    rcases List.mem_cons.mp hrow with rfl | hmem
    · rfl
    · exact writeRows_cell_width driver_row_mapper 3
        (fun i r h => by cases h; rfl) data row hmem
  · intro hveh
    have hv : ∀ i ∈ data, ∃ r, process_vehicle_row i = some r ∧ r ≠ [] := by
      intro i hi
      cases hs : pySplitWs (itemGet i "identifier") with
      | nil => exact absurd hs (hveh i hi)
      | cons t ts =>
        exact ⟨_, process_vehicle_row_eq i t ts hs, by simp⟩
    have hvt := writeRows_total process_vehicle_row data hv
    refine ⟨?_, ?_⟩
    · show ((vehicle_columns :: (writeRows process_vehicle_row data).1).length = _)
      rw [List.length_cons, hvt.1]
    · intro row hrow
      rcases List.mem_cons.mp hrow with rfl | hmem
      · rfl
      · exact writeRows_cell_width process_vehicle_row 7
          process_vehicle_row_width data row hmem

/-- C7 witness: the unconditional rider count at a concrete collection and
the vehicle count at a concrete one-vehicle collection with a valid
identifier, discharging the token hypothesis there. -/
theorem save_to_csv_record_counts_witness :
    (save_to_csv [sampleRider] rider_columns rider_row_mapper).1.length
      = [sampleRider].length + 1
    ∧ (save_to_csv [okVehicle] vehicle_columns process_vehicle_row).1.length
      = [okVehicle].length + 1 :=
  ⟨(save_to_csv_record_counts [sampleRider]).1.1,
   ((save_to_csv_record_counts [okVehicle]).2.2 (by decide)).1⟩

/-- C10: for every rider item and every driver item (any mapping, including
the empty one), the rider row has exactly 10 cells and the driver row exactly
3, both non-empty, so the falsy-row skip branch of `save_to_csv` is never
taken for these mappers and every fetched rider/driver yields exactly one CSV
data row (and no exception escapes). -/
theorem rider_driver_rows_fixed_width (item : Item) (data : List Item) :
    (process_rider_row item).length = 10
    ∧ (process_driver_row item).length = 3
    ∧ process_rider_row item ≠ []
    ∧ process_driver_row item ≠ []
    ∧ (save_to_csv data rider_columns rider_row_mapper).1.length = data.length + 1
    ∧ (save_to_csv data driver_columns driver_row_mapper).1.length = data.length + 1
    ∧ (save_to_csv data rider_columns rider_row_mapper).2 = true
    ∧ (save_to_csv data driver_columns driver_row_mapper).2 = true := by
  have hr := writeRows_total rider_row_mapper data
    (fun i _ => ⟨process_rider_row i, rfl, (rider_row_mapper_total i).2.2⟩)
  have hd := writeRows_total driver_row_mapper data
    (fun i _ => ⟨process_driver_row i, rfl, (driver_row_mapper_total i).2.2⟩)
  refine ⟨rfl, rfl, by simp [process_rider_row], by simp [process_driver_row],
    ?_, ?_, hr.2, hd.2⟩
  · show ((rider_columns :: (writeRows rider_row_mapper data).1).length = _)
    rw [List.length_cons, hr.1]
  · show ((driver_columns :: (writeRows driver_row_mapper data).1).length = _)
    rw [List.length_cons, hd.1]

/-- C10 witness at a concrete rider item and an empty collection. -/
theorem rider_driver_rows_fixed_width_witness :
    (process_rider_row sampleRider).length = 10 :=
  (rider_driver_rows_fixed_width sampleRider []).1

/-- Concatenation of consecutive pages has length equal to the sum of the
page lengths. -/
theorem pagesFrom_length {α : Type} (server : Nat × Nat → PageResponse α) :
    ∀ count page, (pagesFrom server page count).length = sumPageLens server page count := by
  intro count
  induction count with
  | zero => intro page; rfl
  | succ c ih => intro page; simp [pagesFrom, sumPageLens, ih]

/-- Main pagination invariant: starting at any page at most the stopping page
N, with enough fuel, the loop returns the accumulator followed by the
concatenation of the bodies of the remaining pages up to and including N. -/
theorem fetchLoop_concat {α : Type} (server : Nat × Nat → PageResponse α) (N : Nat)
    (hpre : ∀ p, 1 ≤ p → p < N → statusAborts (server (requestParams p)).status = false
      ∧ ∃ l, (server (requestParams p)).body = some l ∧ 50 ≤ l.length)
    (hstatN : statusAborts (server (requestParams N)).status = false)
    (hstop : (server (requestParams N)).body = none
      ∨ ∃ l, (server (requestParams N)).body = some l ∧ l.length < 50) :
    ∀ fuel p acc, 1 ≤ p → p ≤ N → N < p + fuel →
      fetchLoop server fuel p acc
        = some (FetchOutcome.success (acc ++ pagesFrom server p (N + 1 - p))) := by
  intro fuel
  induction fuel with
  | zero => intro p acc h1 h2 h3; omega
  | succ fuel ih =>
    intro p acc h1 h2 h3
    by_cases hpN : p = N
    · subst hpN
      have hcount : p + 1 - p = 1 := by omega
      rcases hstop with hb | ⟨l, hb, hl⟩
      · simp [fetchLoop, hstatN, hb, hcount, pagesFrom]
      · simp [fetchLoop, hstatN, hb, hl, hcount, pagesFrom]
    · have hplt : p < N := lt_of_le_of_ne h2 hpN
      obtain ⟨hab, l, hb, hl⟩ := hpre p h1 hplt
      have hnlt : ¬ l.length < 50 := by omega
      have hstep : fetchLoop server (fuel + 1) p acc
          = fetchLoop server fuel (p + 1) (acc ++ l) := by
        simp [fetchLoop, hab, hb, hnlt]
      rw [hstep, ih (p + 1) (acc ++ l) (by omega) (by omega) (by omega)]
      have hc1 : N + 1 - p = (N - p) + 1 := by omega
      have hc2 : N + 1 - (p + 1) = N - p := by omega
      rw [hc1, hc2]
      simp [pagesFrom, hb]

/-- C1: for every sequence of pages returned by the HTTP data source,
the pagination loop of `fetch_data` returns the concatenation of all pages'
item lists in fetch order, requesting pages with limit 50 and
skip (page - 1) * 50 starting at page 1, stopping after the first page whose
item list has fewer than 50 items (or whose body is empty/missing the data
key, treated as end-of-data contributing no items); the total number of items
returned equals the sum of all fetched page lengths. -/
theorem fetch_data_returns_concatenation {α : Type} (server : Nat × Nat → PageResponse α)
    (N fuel : Nat) (hN : 1 ≤ N) (hfuel : N ≤ fuel)
    (hpre : ∀ p, 1 ≤ p → p < N → (server (requestParams p)).status = 200
      ∧ ∃ l, (server (requestParams p)).body = some l ∧ 50 ≤ l.length)
    (hstatN : (server (requestParams N)).status = 200)
    (hstop : (server (requestParams N)).body = none
      ∨ ∃ l, (server (requestParams N)).body = some l ∧ l.length < 50) :
    fetchLoop server fuel 1 [] = some (FetchOutcome.success (pagesFrom server 1 N))
    ∧ (pagesFrom server 1 N).length = sumPageLens server 1 N
    ∧ ∀ page, requestParams page = (50, (page - 1) * 50) := by
  refine ⟨?_, pagesFrom_length server N 1, fun page => rfl⟩
  have h := fetchLoop_concat server N
    (fun p h1 h2 => ⟨by rw [(hpre p h1 h2).1]; rfl, (hpre p h1 h2).2⟩)
    (by rw [hstatN]; rfl) hstop fuel 1 [] (le_refl 1) hN (by omega)
  rw [h]
  have : N + 1 - 1 = N := by omega
  rw [this, List.nil_append]

/-- C1 witness: a server whose first page (skip 0) is full and whose second
page is short. -/
theorem fetch_data_returns_concatenation_witness :
    fetchLoop srvC1 2 1 [] = some (FetchOutcome.success (pagesFrom srvC1 1 2)) :=
  (fetch_data_returns_concatenation srvC1 2 2 (by decide) (by decide)
    (fun p h1 h2 => by
      have hp : p = 1 := by omega
      subst hp
      exact ⟨rfl, ⟨List.replicate 50 3, rfl, by simp⟩⟩)
    rfl (Or.inr ⟨[], rfl, by decide⟩)).1

/-- With a stopping page somewhere ahead and enough fuel, the pagination loop
returns some outcome (it terminates). -/
theorem fetchLoop_isSome {α : Type} (server : Nat × Nat → PageResponse α) (N : Nat)
    (hstop : (server (requestParams N)).body = none
      ∨ ∃ l, (server (requestParams N)).body = some l ∧ l.length < 50) :
    ∀ fuel p acc, p ≤ N → N < p + fuel → ∃ r, fetchLoop server fuel p acc = some r := by
  intro fuel
  induction fuel with
  | zero => intro p acc h1 h2; omega
  | succ fuel ih =>
    intro p acc h1 h2
    by_cases hab : statusAborts (server (requestParams p)).status = true
    · exact ⟨FetchOutcome.httpError (server (requestParams p)).status,
        by simp [fetchLoop, hab]⟩
    · have hab' : statusAborts (server (requestParams p)).status = false :=
        Bool.eq_false_iff.mpr hab
      cases hb : (server (requestParams p)).body with
      | none => exact ⟨FetchOutcome.success acc, by simp [fetchLoop, hab', hb]⟩
      | some l =>
        by_cases hl : l.length < 50
        · exact ⟨FetchOutcome.success (acc ++ l), by simp [fetchLoop, hab', hb, hl]⟩
        · have hpN : p ≠ N := by
            intro he
            subst he
            rcases hstop with h | ⟨l', hl', hlen⟩
            · rw [h] at hb; exact Option.noConfusion hb
            · rw [hl'] at hb; cases hb; omega
          obtain ⟨r, hr⟩ := ih (p + 1) (acc ++ l) (by omega) (by omega)
          refine ⟨r, ?_⟩
          rw [show fetchLoop server (fuel + 1) p acc
            = fetchLoop server fuel (p + 1) (acc ++ l) by simp [fetchLoop, hab', hb, hl]]
          exact hr

/-- C6: for every data source that is finite but eventually returns a page of
fewer than 50 items (or a body without items), the pagination loop
terminates; while a page returns exactly 50 items the loop continues to the
next page with the items accumulated. -/
theorem fetch_pagination_terminates {α : Type} (server : Nat × Nat → PageResponse α)
    (N : Nat) (hN : 1 ≤ N)
    (hstop : (server (requestParams N)).body = none
      ∨ ∃ l, (server (requestParams N)).body = some l ∧ l.length < 50) :
    (∃ r, fetchLoop server N 1 [] = some r)
    ∧ ∀ fuel page acc (l : List α),
        statusAborts (server (requestParams page)).status = false →
        (server (requestParams page)).body = some l → l.length = 50 →
        fetchLoop server (fuel + 1) page acc = fetchLoop server fuel (page + 1) (acc ++ l) := by
  refine ⟨fetchLoop_isSome server N hstop N 1 [] hN (by omega), ?_⟩
  intro fuel page acc l h1 h2 h3
  simp [fetchLoop, h1, h2, h3]

/-- C6 witness: a server that answers every page with an empty (short) page. -/
theorem fetch_pagination_terminates_witness :
    ∃ r, fetchLoop srvStop 1 1 [] = some r :=
  (fetch_pagination_terminates srvStop 1 (by decide) (Or.inr ⟨[], rfl, by decide⟩)).1

/-- C5 counterexample: a 304 response is not a success (not 2xx), yet the
fetch does not raise: `raise_for_status()` only raises for 4xx/5xx, so the
loop goes on to parse the body and ends normally. -/
theorem fetch_non2xx_not_raising_counterexample :
    (srv304 (requestParams 1)).status = 304
    ∧ ¬ (200 ≤ 304 ∧ 304 < 300)
    ∧ statusAborts 304 = false
    ∧ fetchLoop srv304 1 1 [] = some (FetchOutcome.success ([] : List Nat)) :=
  ⟨rfl, by decide, rfl, rfl⟩

/-- C5 (amended): a response aborts the fetch by raising exactly when its
status is a 4xx or 5xx code, in which case the raised error carries that
status; success (2xx) statuses never abort; other non-2xx statuses (1xx/3xx)
are logged but do not raise. -/
theorem fetch_status_abort_characterization {α : Type}
    (server : Nat × Nat → PageResponse α) (fuel page : Nat) (acc : List α) :
    (∀ s, statusAborts s = true ↔ 400 ≤ s ∧ s < 600)
    ∧ (∀ s, 200 ≤ s → s < 300 → statusAborts s = false)
    ∧ (statusAborts (server (requestParams page)).status = true →
        fetchLoop server (fuel + 1) page acc
          = some (FetchOutcome.httpError (server (requestParams page)).status)) := by
  refine ⟨?_, ?_, ?_⟩
  · intro s
    simp only [statusAborts, raise_for_status_raises, Bool.and_eq_true, decide_eq_true_eq]
    omega
  · intro s h1 h2
    simp only [statusAborts, raise_for_status_raises]
    have : ¬ (400 ≤ s ∧ s < 600) := by omega
    simp [this]
  · intro h
    simp [fetchLoop, h]

/-- C5 witness: a 500 response aborts with an error carrying status 500. -/
theorem fetch_status_abort_characterization_witness :
    fetchLoop srv500 1 1 ([] : List Nat)
      = some (FetchOutcome.httpError (srv500 (requestParams 1)).status) :=
  (fetch_status_abort_characterization srv500 0 1 []).2.2 (by decide)

/-- The pagination loop itself never produces the missing-token outcome. -/
theorem fetchLoop_ne_configError {α : Type} (server : Nat × Nat → PageResponse α) :
    ∀ fuel page acc, fetchLoop server fuel page acc ≠ some (FetchOutcome.configError) := by
  intro fuel
  induction fuel with
  | zero => intro page acc h; exact Option.noConfusion h
  | succ fuel ih =>
    intro page acc h
    by_cases hab : statusAborts (server (requestParams page)).status = true
    · rw [show fetchLoop server (fuel + 1) page acc
        = some (FetchOutcome.httpError (server (requestParams page)).status)
        by simp [fetchLoop, hab]] at h
      cases Option.some.inj h
    · have hab' : statusAborts (server (requestParams page)).status = false :=
        Bool.eq_false_iff.mpr hab
      cases hb : (server (requestParams page)).body with
      | none =>
        rw [show fetchLoop server (fuel + 1) page acc = some (FetchOutcome.success acc)
          by simp [fetchLoop, hab', hb]] at h
        cases Option.some.inj h
      | some l =>
        by_cases hl : l.length < 50
        · rw [show fetchLoop server (fuel + 1) page acc
            = some (FetchOutcome.success (acc ++ l)) by simp [fetchLoop, hab', hb, hl]] at h
          cases Option.some.inj h
        · rw [show fetchLoop server (fuel + 1) page acc
            = fetchLoop server fuel (page + 1) (acc ++ l)
            by simp [fetchLoop, hab', hb, hl]] at h
          exact ih (page + 1) (acc ++ l) h

/-- C9: whenever the API token environment variable is unset or empty,
`fetch_data` raises the missing-token configuration error before issuing any
HTTP request (the outcome does not depend on the server at all); whenever a
non-empty token is present, the loop runs and no such error is ever
produced. -/
theorem fetch_data_requires_token {α : Type} (token : Option String)
    (server : Nat × Nat → PageResponse α) (fuel : Nat) :
    ((token = none ∨ token = some "") →
      fetch_data token server fuel = some (FetchOutcome.configError)
      ∧ ∀ server' : Nat × Nat → PageResponse α,
          fetch_data token server' fuel = some (FetchOutcome.configError))
    ∧ (∀ t, token = some t → t ≠ "" →
        fetch_data token server fuel = fetchLoop server fuel 1 []
        ∧ fetch_data token server fuel ≠ some (FetchOutcome.configError)) := by
  constructor
  · intro h
    have hd : token.getD "" = "" := by rcases h with rfl | rfl <;> rfl
    exact ⟨by simp [fetch_data, hd], fun server' => by simp [fetch_data, hd]⟩
  · intro t ht hne
    subst ht
    have heq : fetch_data (some t) server fuel = fetchLoop server fuel 1 [] := by
      simp only [fetch_data, Option.getD_some]
      rw [if_neg hne]
    exact ⟨heq, by rw [heq]; exact fetchLoop_ne_configError server fuel 1 []⟩

/-- C9 witness: a missing token errors out; a non-empty token does not. -/
theorem fetch_data_requires_token_witness :
    fetch_data none srvStop 1 = some (FetchOutcome.configError)
    ∧ fetch_data (some "tok") srvStop 1 ≠ some (FetchOutcome.configError) :=
  ⟨((fetch_data_requires_token none srvStop 1).1 (Or.inl rfl)).1,
   ((fetch_data_requires_token (some "tok") srvStop 1).2 "tok" rfl (by decide)).2⟩

/-- C2 witness: the concrete example from the claim. -/
theorem clean_description_removes_all_parens_witness :
    clean_description "Toyota (2020 model); used" = "Toyota" :=
  clean_description_removes_all_parens.2.1

/-- C4 witness: a concrete 10-character stripped input is rendered as a
phone number. -/
theorem format_phone_number_length_based_witness :
    format_phone_number "2045551234"
      = String.mk ('(' :: ("2045551234".data).take 3 ++ ')'
          :: (("2045551234".data).drop 3).take 3 ++ '-' :: ("2045551234".data).drop 6) :=
  (((format_phone_number_length_based "2045551234").2.2.2
      "2045551234".data (by decide)).2.1 (by decide))
